import Mathlib

/-!
# Verification of the post-comments-service comment threading subsystem

Shallow embedding of the comment storage layer (`repository/comment_repo.go`,
the variant in `server`'s repository with the `parent_id IS NULL` top-level
filter), the comment service (`CreateComment`, `UpdateComment`,
`DeleteComment`, `ListCommentsByPost`, `GetCommentReplies`), the HTTP
controller response shapes (`controllers/comment_controller.go`), and the
PostgreSQL triggers from `migrations/001_init.sql`
(`set_comment_path_and_thread`) and `migrations/002_add_missing_fields.sql`
(`update_replies_count`, `decrement_replies_count`,
`update_comments_updated_at`).

UUIDs and timestamps are modelled as `Nat`.  SQL `INTEGER` counters are
modelled as `Int` (so that `GREATEST(x - 1, 0)` is meaningful).  Rows of the
`comments`, `users` and `posts` tables are structures; a database is a triple
of row lists.  Each Go function that touches the database becomes a Lean
function on this state; errors mirror the sentinel errors of
`utils/error_handler.go` (`errors.Is` sees through `utils.WrapError`, so a
wrapped error keeps its base kind).
-/

namespace PostComments

/-- Error kinds of `utils/error_handler.go`.  `WrapError` preserves the base
error for `errors.Is`, so services and controllers observe exactly these. -/
inductive Err where
  | userNotFound
  | postNotFound
  | commentNotFound
  | forbidden
  | invalidInput
  | internal
  deriving DecidableEq, Repr

/-- `utils.IsNotFoundError`: user, post or comment not found. -/
def Err.isNotFound : Err → Bool
  | .userNotFound => true
  | .postNotFound => true
  | .commentNotFound => true
  | _ => false

/-- A row of the `users` table (fields relevant to the comment subsystem). -/
structure UserRow where
  id : Nat
  username : String
  deletedAt : Option Nat
  deriving DecidableEq, Repr

/-- A row of the `posts` table (fields relevant to the comment subsystem). -/
structure PostRow where
  id : Nat
  deletedAt : Option Nat
  deriving DecidableEq, Repr

/-- A row of the `comments` table, after migrations 001 and 002:
`id, content, post_id, parent_id, path, thread_id, created_by, created_at,
updated_at, replies_count, deleted_at`. -/
structure CommentRow where
  id : Nat
  content : String
  postId : Nat
  parentId : Option Nat
  path : List Nat
  threadId : Nat
  createdBy : Option Nat
  createdAt : Nat
  updatedAt : Nat
  repliesCount : Int
  deletedAt : Option Nat
  deriving DecidableEq, Repr

/-- The shared database state. -/
structure DB where
  users : List UserRow
  posts : List PostRow
  comments : List CommentRow
  deriving DecidableEq, Repr

/-- A comment row together with the optionally joined author row, as returned
by the repository read queries. -/
structure CommentOut where
  comment : CommentRow
  author : Option UserRow
  deriving DecidableEq, Repr

/-- `userRepository.GetByID`:
`SELECT ... FROM users WHERE id = $1 AND deleted_at IS NULL`. -/
def usersGetByID (db : DB) (uid : Nat) : Except Err UserRow :=
  match db.users.find? (fun u => u.id == uid && u.deletedAt == none) with
  | some u => .ok u
  | none => .error .userNotFound

/-- `postRepository.GetByID`:
`SELECT ... FROM posts WHERE id = $1 AND deleted_at IS NULL`. -/
def postsGetByID (db : DB) (pid : Nat) : Except Err PostRow :=
  match db.posts.find? (fun p => p.id == pid && p.deletedAt == none) with
  | some p => .ok p
  | none => .error .postNotFound

/-- `commentRepository.GetByID`:
`SELECT ... FROM comments WHERE id = $1 AND deleted_at IS NULL`;
`sql.ErrNoRows` becomes `utils.ErrCommentNotFound`. -/
def commentsGetByID (db : DB) (cid : Nat) : Except Err CommentRow :=
  match db.comments.find? (fun c => c.id == cid && c.deletedAt == none) with
  | some c => .ok c
  | none => .error .commentNotFound

/-- `commentRepository.GetByIDWithAuthor`: inner join
`JOIN users u ON c.created_by = u.id` with
`c.deleted_at IS NULL AND u.deleted_at IS NULL`; a missing join partner also
yields `sql.ErrNoRows`, hence `utils.ErrCommentNotFound`. -/
def commentsGetByIDWithAuthor (db : DB) (cid : Nat) : Except Err CommentOut :=
  match db.comments.find? (fun c => c.id == cid && c.deletedAt == none) with
  | none => .error .commentNotFound
  | some c =>
    match db.users.find? (fun u => c.createdBy == some u.id && u.deletedAt == none) with
    | none => .error .commentNotFound
    | some u => .ok { comment := c, author := some u }

/-- The `LEFT JOIN users u ON c.created_by = u.id AND u.deleted_at IS NULL`
used by the list queries: the author is attached when a live matching user
exists, otherwise the comment is returned with no author. -/
def leftJoinAuthor (db : DB) (c : CommentRow) : CommentOut :=
  { comment := c
    author := db.users.find? (fun u => c.createdBy == some u.id && u.deletedAt == none) }

/-- `ORDER BY created_at ASC` as a relation for `List.insertionSort`. -/
def createdAtAsc (a b : CommentRow) : Prop := a.createdAt ≤ b.createdAt

/-- `ORDER BY created_at DESC` as a relation for `List.insertionSort`. -/
def createdAtDesc (a b : CommentRow) : Prop := b.createdAt ≤ a.createdAt

instance : DecidableRel createdAtAsc := fun a b => by
  unfold createdAtAsc; infer_instance

instance : DecidableRel createdAtDesc := fun a b => by
  unfold createdAtDesc; infer_instance

instance : IsTotal CommentRow createdAtAsc :=
  ⟨fun a b => Nat.le_total a.createdAt b.createdAt⟩

instance : IsTrans CommentRow createdAtAsc :=
  ⟨fun _ _ _ h h' => Nat.le_trans h h'⟩

instance : IsTotal CommentRow createdAtDesc :=
  ⟨fun a b => Nat.le_total b.createdAt a.createdAt⟩

instance : IsTrans CommentRow createdAtDesc :=
  ⟨fun _ _ _ h h' => Nat.le_trans h' h⟩

/-- `LIMIT $limit OFFSET $offset` applied to an ordered row list. -/
def page (rows : List CommentRow) (limit offset : Nat) : List CommentRow :=
  (rows.drop offset).take limit

/-- `commentRepository.ListByPost` of `repository/comment_repo.go`:
`WHERE c.post_id = $1 AND c.deleted_at IS NULL ORDER BY c.created_at ASC
LIMIT $2 OFFSET $3` with the author left join.  Note: no `parent_id` filter
and ascending order. -/
def commentsListByPost (db : DB) (postId limit offset : Nat) : List CommentOut :=
  (page ((db.comments.filter
      (fun c => c.postId == postId && c.deletedAt == none)).insertionSort createdAtAsc)
    limit offset).map (leftJoinAuthor db)

/-- `commentRepository.ListByPost` of the variant repository (the unnamed
`part_007` file): `WHERE c.post_id = $1 AND c.deleted_at IS NULL AND
c.parent_id IS NULL ORDER BY c.created_at DESC LIMIT $2 OFFSET $3`. -/
def commentsListByPostTopLevel (db : DB) (postId limit offset : Nat) : List CommentOut :=
  (page ((db.comments.filter
      (fun c => c.postId == postId && c.deletedAt == none && c.parentId == none)).insertionSort
      createdAtDesc)
    limit offset).map (leftJoinAuthor db)

/-- `commentRepository.GetReplies`:
`WHERE c.parent_id = $1 AND c.deleted_at IS NULL ORDER BY c.created_at ASC
LIMIT $2 OFFSET $3` with the author left join. -/
def commentsGetReplies (db : DB) (parentId limit offset : Nat) : List CommentOut :=
  (page ((db.comments.filter
      (fun c => c.parentId == some parentId && c.deletedAt == none)).insertionSort
      createdAtAsc)
    limit offset).map (leftJoinAuthor db)

/-! ## Write operations and the triggers of migrations 001/002 -/

/-- Trigger `update_replies_count` (AFTER INSERT ON comments): if the new row
has a parent, `UPDATE comments SET replies_count = replies_count + 1 WHERE id
= NEW.parent_id`.  That UPDATE itself fires `update_comments_updated_at`
(BEFORE UPDATE ON comments), so the parent row's `updated_at` is bumped. -/
def applyIncrementTrigger (comments : List CommentRow) (parentId : Option Nat)
    (now : Nat) : List CommentRow :=
  match parentId with
  | none => comments
  | some p => comments.map fun r =>
      if r.id = p then { r with repliesCount := r.repliesCount + 1, updatedAt := now } else r

/-- Trigger `decrement_replies_count` (AFTER UPDATE OF deleted_at, WHEN the
row transitions live → deleted): if the deleted row had a parent,
`UPDATE comments SET replies_count = GREATEST(replies_count - 1, 0) WHERE id
= OLD.parent_id`, with the `updated_at` trigger firing on that UPDATE. -/
def applyDecrementTrigger (comments : List CommentRow) (parentId : Option Nat)
    (now : Nat) : List CommentRow :=
  match parentId with
  | none => comments
  | some p => comments.map fun r =>
      if r.id = p then { r with repliesCount := max (r.repliesCount - 1) 0, updatedAt := now }
      else r

/-- `commentRepository.Create` plus the database-side effects.  The Go INSERT
supplies `id, content, post_id, parent_id, path, thread_id, created_by,
created_at` (columns `replies_count` and `updated_at` take their defaults
`0` and `NOW()`).  The BEFORE INSERT trigger `set_comment_path_and_thread`
then **overwrites** `path` and `thread_id`: a root row gets
`path = ARRAY[NEW.id]`, `thread_id = NEW.id`; a reply looks up the parent row
by id (no live filter) and gets `path = parent.path || NEW.id`,
`thread_id = parent.thread_id`.  After the insert the increment trigger runs.
A reply whose parent id matches no row violates the foreign key and the
INSERT fails (`none`). -/
def dbInsertComment (db : DB) (row : CommentRow) (now : Nat) : Option DB :=
  match row.parentId with
  | none =>
    let stored := { row with
      path := [row.id], threadId := row.id, repliesCount := 0, updatedAt := now,
      deletedAt := none }
    some { db with comments := stored :: db.comments }
  | some p =>
    match db.comments.find? (fun c => c.id == p) with
    | none => none
    | some parent =>
      let stored := { row with
        path := parent.path ++ [row.id], threadId := parent.threadId, repliesCount := 0,
        updatedAt := now, deletedAt := none }
      some { db with comments := applyIncrementTrigger (stored :: db.comments) (some p) now }

/-- The row-level effect of `UPDATE comments SET deleted_at = $1 WHERE id =
$2 AND deleted_at IS NULL` (with the `updated_at` trigger). -/
def markDeleted (now target : Nat) (r : CommentRow) : CommentRow :=
  if r.id = target ∧ r.deletedAt = none then { r with deletedAt := some now, updatedAt := now }
  else r

/-- `commentRepository.Delete`: soft delete.  If no live row matches,
`rowsAffected == 0` and the repository returns `utils.ErrCommentNotFound`.
Otherwise the matching row is tombstoned and the decrement trigger fires for
its parent. -/
def commentsDelete (db : DB) (cid now : Nat) : Except Err DB :=
  match db.comments.find? (fun c => c.id == cid && c.deletedAt == none) with
  | none => .error .commentNotFound
  | some old =>
    .ok { db with
      comments := applyDecrementTrigger (db.comments.map (markDeleted now cid)) old.parentId now }

/-- `commentRepository.Update`: with no content field the current comment is
returned unchanged; otherwise `UPDATE comments SET content = $1 WHERE id = $2
AND deleted_at IS NULL` (the `updated_at` trigger fires), `rowsAffected == 0`
maps to `utils.ErrCommentNotFound`, and the updated comment is re-read with
its author. -/
def commentsUpdate (db : DB) (cid : Nat) (newContent : Option String) (now : Nat) :
    Except Err CommentOut × DB :=
  match newContent with
  | none => (commentsGetByIDWithAuthor db cid, db)
  | some s =>
    match db.comments.find? (fun c => c.id == cid && c.deletedAt == none) with
    | none => (.error .commentNotFound, db)
    | some _ =>
      let db' := { db with comments := db.comments.map fun r =>
        if r.id = cid ∧ r.deletedAt = none then { r with content := s, updatedAt := now } else r }
      (commentsGetByIDWithAuthor db' cid, db')

/-! ## The comment service (services/comment_service.go, sanitizing variant) -/

/-- The HTML sanitizer collaborator (`utils.HTMLSanitizer`): content handling
is opaque to the threading core, so `ValidateHTMLContent` and
`ProcessCommentContent` are carried as parameters. -/
structure Sanitizer where
  validateHTML : String → Bool
  process : String → String

/-- `commentService.CreateComment`.  Inputs arrive parsed and
struct-validated (the `uuid.Parse` and `validator.ValidateStruct` layers of
the Go code never fail on well-formed structured input).  `newId` is the
freshly generated UUID, `now` the write timestamp.  The service checks the
user and the post exist live, validates and sanitizes the content, resolves
the parent (live only) enforcing the same-post rule, inserts, and re-reads
the stored row with its author. -/
def createComment (san : Sanitizer) (db : DB) (newId now userId postId : Nat)
    (parentId : Option Nat) (content : String) : Except Err CommentOut × DB :=
  match usersGetByID db userId with
  | .error e => (.error e, db)
  | .ok _ =>
  match postsGetByID db postId with
  | .error e => (.error e, db)
  | .ok _ =>
  if san.validateHTML content = false then (.error .invalidInput, db)
  else
    let sanitized := san.process content
    match parentId with
    | some pid =>
      match commentsGetByID db pid with
      | .error e => (.error e, db)
      | .ok parent =>
        if parent.postId ≠ postId then (.error .invalidInput, db)
        else
          let row : CommentRow :=
            { id := newId, content := sanitized, postId := postId, parentId := some pid,
              path := parent.path ++ [pid], threadId := parent.threadId,
              createdBy := some userId, createdAt := now, updatedAt := now,
              repliesCount := 0, deletedAt := none }
          match dbInsertComment db row now with
          | none => (.error .internal, db)
          | some db' => (commentsGetByIDWithAuthor db' newId, db')
    | none =>
      let row : CommentRow :=
        { id := newId, content := sanitized, postId := postId, parentId := none,
          path := [newId], threadId := newId, createdBy := some userId, createdAt := now,
          updatedAt := now, repliesCount := 0, deletedAt := none }
      match dbInsertComment db row now with
      | none => (.error .internal, db)
      | some db' => (commentsGetByIDWithAuthor db' newId, db')

/-- `commentService.UpdateComment`: fetch the live comment, check
`CreatedBy == nil || *CreatedBy != userID` (forbidden), validate and sanitize
the new content, delegate to the repository update. -/
def updateComment (san : Sanitizer) (db : DB) (now cid userId : Nat)
    (newContent : Option String) : Except Err CommentOut × DB :=
  match commentsGetByID db cid with
  | .error e => (.error e, db)
  | .ok existing =>
    match existing.createdBy with
    | none => (.error .forbidden, db)
    | some owner =>
      if owner ≠ userId then (.error .forbidden, db)
      else
        match newContent with
        | some s =>
          if san.validateHTML s = false then (.error .invalidInput, db)
          else commentsUpdate db cid (some (san.process s)) now
        | none => commentsUpdate db cid none now

/-- `commentService.DeleteComment`: fetch the live comment, check the caller
owns it, delegate to the repository soft delete. -/
def deleteComment (db : DB) (now cid userId : Nat) : Except Err Unit × DB :=
  match commentsGetByID db cid with
  | .error e => (.error e, db)
  | .ok existing =>
    match existing.createdBy with
    | none => (.error .forbidden, db)
    | some owner =>
      if owner ≠ userId then (.error .forbidden, db)
      else
        match commentsDelete db cid now with
        | .error e => (.error e, db)
        | .ok db' => (.ok (), db')

/-- `commentService.ListCommentsByPost`: post must exist live; limit defaults
to 20 when non-positive and is capped at 100; negative offsets fall back to
0; then the repository list query runs. -/
def listCommentsByPost (db : DB) (postId : Nat) (reqLimit reqOffset : Int) :
    Except Err (List CommentOut) :=
  match postsGetByID db postId with
  | .error e => .error e
  | .ok _ =>
    let limit0 : Int := if reqLimit > 0 then reqLimit else 20
    let offset : Int := if reqOffset ≥ 0 then reqOffset else 0
    let limit : Int := if limit0 > 100 then 100 else limit0
    .ok (commentsListByPost db postId limit.toNat offset.toNat)

/-- `commentService.GetCommentReplies`: parent comment must exist live; limit
defaults to 20 when non-positive and is capped at 100; negative offsets fall
back to 0; then the repository replies query runs. -/
def getCommentReplies (db : DB) (cid : Nat) (reqLimit reqOffset : Int) :
    Except Err (List CommentOut) :=
  match commentsGetByID db cid with
  | .error e => .error e
  | .ok _ =>
    let limit0 : Int := if reqLimit ≤ 0 then 20 else reqLimit
    let offset : Int := if reqOffset < 0 then 0 else reqOffset
    let limit : Int := if limit0 > 100 then 100 else limit0
    .ok (commentsGetReplies db cid limit.toNat offset.toNat)

/-! ## Controller layer (controllers/comment_controller.go) -/

/-- A value in a `gin.H` response map. -/
inductive GinVal where
  | num (n : Int)
  | items (xs : List CommentOut)
  deriving DecidableEq, Repr

/-- The HTTP outcome of a controller handler. -/
inductive HttpResp where
  | ok (fields : List (String × GinVal))
  | notFound (resource : String)
  | internal
  deriving DecidableEq, Repr

/-- `CommentController.ListCommentsByPost` success/error mapping and response
body: `gin.H{"comments": ..., "limit": ..., "offset": ..., "count": ...}`
(limit and offset already validated non-negative by the controller). -/
def listCommentsByPostHandler (db : DB) (postId : Nat) (limit offset : Int) : HttpResp :=
  match listCommentsByPost db postId limit offset with
  | .error e => if e.isNotFound then .notFound "Post" else .internal
  | .ok comments =>
    .ok [("comments", .items comments), ("limit", .num limit), ("offset", .num offset),
         ("count", .num comments.length)]

/-- `CommentController.GetCommentReplies` success/error mapping and response
body: `gin.H{"replies": ..., "limit": ..., "offset": ..., "count": ...}`. -/
def getCommentRepliesHandler (db : DB) (cid : Nat) (limit offset : Int) : HttpResp :=
  match getCommentReplies db cid limit offset with
  | .error e => if e.isNotFound then .notFound "Comment" else .internal
  | .ok replies =>
    .ok [("replies", .items replies), ("limit", .num limit), ("offset", .num offset),
         ("count", .num replies.length)]

/-- The key list of a successful `gin.H` response body (empty for error
responses). -/
def respKeys : HttpResp → List String
  | .ok fields => fields.map Prod.fst
  | _ => []

/-! ## Invariants (spec section 3) -/

/-- Number of live comments whose `parent_id` is `cid`. -/
def liveChildCount (comments : List CommentRow) (cid : Nat) : Nat :=
  (comments.filter fun c => c.deletedAt == none && c.parentId == some cid).length

/-- Spec invariant 5: every comment's `replies_count` equals the number of
live comments whose `parent_id` references it. -/
def RepliesInv (comments : List CommentRow) : Prop :=
  ∀ c ∈ comments, c.repliesCount = (liveChildCount comments c.id : Int)

instance (l : List CommentRow) : Decidable (RepliesInv l) := by
  unfold RepliesInv; infer_instance

instance {ε α : Type} [DecidableEq ε] [DecidableEq α] : DecidableEq (Except ε α) := fun x y =>
  match x, y with
  | .ok a, .ok b =>
    if h : a = b then .isTrue (by rw [h])
    else .isFalse fun hh => h (Except.ok.inj hh)
  | .error a, .error b =>
    if h : a = b then .isTrue (by rw [h])
    else .isFalse fun hh => h (Except.error.inj hh)
  | .ok _, .error _ => .isFalse fun hh => Except.noConfusion hh
  | .error _, .ok _ => .isFalse fun hh => Except.noConfusion hh

/-! ## Concrete fixtures used by witnesses and counterexamples -/

/-- A sanitizer that accepts everything and keeps content unchanged. -/
def sanTrue : Sanitizer := { validateHTML := fun _ => true, process := fun s => s }

def aliceRow : UserRow := { id := 10, username := "alice", deletedAt := none }

def bobRow : UserRow := { id := 11, username := "bob", deletedAt := none }

def postRow1 : PostRow := { id := 1, deletedAt := none }

def postRow2 : PostRow := { id := 2, deletedAt := none }

/-- A stored root comment on post 1 (path and thread as the insert trigger
produces them). -/
def rootRow : CommentRow :=
  { id := 100, content := "hi", postId := 1, parentId := none, path := [100],
    threadId := 100, createdBy := some 10, createdAt := 5, updatedAt := 5,
    repliesCount := 0, deletedAt := none }

/-- A stored reply to `rootRow` on post 1. -/
def replyRow : CommentRow :=
  { id := 101, content := "re", postId := 1, parentId := some 100, path := [100, 101],
    threadId := 100, createdBy := some 11, createdAt := 6, updatedAt := 6,
    repliesCount := 0, deletedAt := none }

/-- Two users, two posts, one root comment on post 1. -/
def dbOne : DB :=
  { users := [aliceRow, bobRow], posts := [postRow1, postRow2], comments := [rootRow] }

/-- Two users, two posts, a root comment and its reply on post 1 (the root's
counter reflecting the live reply). -/
def dbTwo : DB :=
  { users := [aliceRow, bobRow], posts := [postRow1, postRow2],
    comments := [replyRow, { rootRow with repliesCount := 1 }] }

/-- The INSERT row the service supplies for a second reply to `rootRow`
(the Go code sends `path = parent.path ++ [parentId]`; the trigger replaces
it). -/
def row102 : CommentRow :=
  { id := 102, content := "x", postId := 1, parentId := some 100, path := [100, 100],
    threadId := 100, createdBy := some 10, createdAt := 8, updatedAt := 8,
    repliesCount := 0, deletedAt := none }

/-- `dbTwo` after inserting `row102` (trigger-set path `[100, 102]`, root
counter bumped to 2). -/
def dbTwoIns : DB :=
  { users := [aliceRow, bobRow], posts := [postRow1, postRow2],
    comments := [{ row102 with path := [100, 102] }, replyRow,
                 { rootRow with repliesCount := 2, updatedAt := 8 }] }

/-- `dbTwo` after soft-deleting reply 101 at time 7 (reply tombstoned, root
counter decremented back to 0). -/
def dbTwoDel : DB :=
  { users := [aliceRow, bobRow], posts := [postRow1, postRow2],
    comments := [{ replyRow with deletedAt := some 7, updatedAt := 7 },
                 { rootRow with repliesCount := 0, updatedAt := 7 }] }

/-- A live root comment whose author (user 10) has been soft-deleted. -/
def dbOrphan : DB :=
  { users := [{ aliceRow with deletedAt := some 9 }, bobRow],
    posts := [postRow1, postRow2], comments := [rootRow] }

/-! ## Theorems -/

/-- Rows surviving `LIMIT`/`OFFSET` come from the underlying ordered list. -/
theorem mem_of_mem_page {l : List CommentRow} {n m : Nat} {c : CommentRow}
    (h : c ∈ page l n m) : c ∈ l :=
  List.mem_of_mem_drop (List.mem_of_mem_take h)

/-- `LIMIT`/`OFFSET` preserve the sort order of the underlying list. -/
theorem sorted_page {r : CommentRow → CommentRow → Prop} {l : List CommentRow}
    (h : List.Sorted r l) (n m : Nat) : List.Sorted r (page l n m) :=
  h.sublist ((List.take_sublist _ _).trans (List.drop_sublist _ _))

/-- Projecting the comment back out of the author left join recovers the row
list. -/
theorem map_comment_leftJoin (db : DB) (l : List CommentRow) :
    (l.map (leftJoinAuthor db)).map (fun o => o.comment) = l := by
  induction l with
  | nil => rfl
  | cons a t ih => simp [leftJoinAuthor, ih]

/-- Unfolding `liveChildCount` over a cons cell. -/
theorem liveChildCount_cons (x : CommentRow) (l : List CommentRow) (cid : Nat) :
    liveChildCount (x :: l) cid =
      liveChildCount l cid +
        (if x.deletedAt == none && x.parentId == some cid then 1 else 0) := by
  unfold liveChildCount
  rw [List.filter_cons]
  split
  · simp [Nat.add_comm]
  · simp

/-- A rewrite that changes neither tombstones nor parent pointers leaves
every live-children count unchanged. -/
theorem liveChildCount_map_congr (f : CommentRow → CommentRow) (l : List CommentRow)
    (cid : Nat)
    (h : ∀ c ∈ l, (f c).deletedAt = c.deletedAt ∧ (f c).parentId = c.parentId) :
    liveChildCount (l.map f) cid = liveChildCount l cid := by
  induction l with
  | nil => rfl
  | cons a t ih =>
    have ha := h a (List.mem_cons_self a t)
    rw [List.map_cons, liveChildCount_cons, liveChildCount_cons, ha.1, ha.2,
      ih fun c hc => h c (List.mem_cons_of_mem a hc)]

/-- The increment trigger's UPDATE changes no tombstone or parent pointer,
so live-children counts are unchanged. -/
theorem liveChildCount_bump (l : List CommentRow) (p now cid : Nat) :
    liveChildCount (l.map fun r =>
        if r.id = p then { r with repliesCount := r.repliesCount + 1, updatedAt := now }
        else r) cid =
      liveChildCount l cid :=
  liveChildCount_map_congr _ _ _ fun c _ => by by_cases h : c.id = p <;> simp [h]

/-- The decrement trigger's UPDATE changes no tombstone or parent pointer,
so live-children counts are unchanged. -/
theorem liveChildCount_dec (l : List CommentRow) (p now cid : Nat) :
    liveChildCount (l.map fun r =>
        if r.id = p then { r with repliesCount := max (r.repliesCount - 1) 0, updatedAt := now }
        else r) cid =
      liveChildCount l cid :=
  liveChildCount_map_congr _ _ _ fun c _ => by by_cases h : c.id = p <;> simp [h]

/-- A node nobody points at has no live children. -/
theorem liveChildCount_eq_zero (l : List CommentRow) (cid : Nat)
    (h : ∀ c ∈ l, c.parentId ≠ some cid) : liveChildCount l cid = 0 := by
  induction l with
  | nil => rfl
  | cons a t ih =>
    rw [liveChildCount_cons, ih fun c hc => h c (List.mem_cons_of_mem a hc)]
    have := h a (List.mem_cons_self a t)
    simp [this]

/-- A live child witnesses a positive count. -/
theorem one_le_liveChildCount (l : List CommentRow) (cid : Nat) (x : CommentRow)
    (hx : x ∈ l) (hlive : x.deletedAt = none) (hpar : x.parentId = some cid) :
    1 ≤ liveChildCount l cid := by
  unfold liveChildCount
  exact List.length_pos_of_mem (List.mem_filter.mpr ⟨hx, by simp [hlive, hpar]⟩)

/-- Tombstoning the unique live row with id `target` removes exactly that
row's contribution from each live-children count. -/
theorem liveChildCount_markDeleted (l : List CommentRow) (now target cid : Nat)
    (x : CommentRow)
    (hfind : l.find? (fun c => c.id == target && c.deletedAt == none) = some x)
    (hnodup : (l.map fun c => c.id).Nodup) :
    liveChildCount l cid =
      liveChildCount (l.map (markDeleted now target)) cid +
        (if x.parentId == some cid then 1 else 0) := by
  induction l with
  | nil => simp at hfind
  | cons a t ih =>
    rw [List.map_cons, liveChildCount_cons, liveChildCount_cons]
    by_cases hpa : (a.id == target && a.deletedAt == none) = true
    · simp only [List.find?_cons, hpa] at hfind
      obtain rfl : a = x := by injection hfind
      have hb : a.id = target ∧ a.deletedAt = none := by simpa using hpa
      have hma : markDeleted now target a =
          { a with deletedAt := some now, updatedAt := now } := if_pos ⟨hb.1, hb.2⟩
      have hnotin : ∀ c ∈ t, c.id ≠ target := by
        intro c hc h
        have hin : a.id ∈ t.map fun c => c.id := by
          rw [hb.1, ← h]
          exact List.mem_map_of_mem (fun c => c.id) hc
        exact (List.nodup_cons.mp hnodup).1 hin
      have htail : t.map (markDeleted now target) = t := by
        have : ∀ c ∈ t, markDeleted now target c = c := fun c hc =>
          if_neg fun hcond => hnotin c hc hcond.1
        calc t.map (markDeleted now target) = t.map id := List.map_congr_left this
          _ = t := List.map_id t
      rw [hma, htail]
      simp [hb.2]
    · have hpaf : (a.id == target && a.deletedAt == none) = false := by
        simpa using hpa
      simp only [List.find?_cons, hpaf] at hfind
      have hma : markDeleted now target a = a :=
        if_neg fun hcond => hpa (by simp [hcond.1, hcond.2])
      rw [hma, ih hfind (List.nodup_cons.mp hnodup).2]
      omega

/-- C1, counterexample: in `dbOne` the live parent `rootRow` has stored
`path = [100]` and `id = 100`, so the claim predicts the new reply's stored
path `[100] ++ [100] = [100, 100]`; creating the reply (id 101) actually
stores `[100, 101]` — the trigger `set_comment_path_and_thread` appends the
**new** comment's id, not the parent's. -/
theorem c1_counterexample :
    ((createComment sanTrue dbOne 101 6 11 1 (some 100) "re").1.toOption.map
      fun o => o.comment.path) = some [100, 101] ∧
    some ([100, 101] : List Nat) ≠ some (rootRow.path ++ [rootRow.id]) := by
  decide

/-- C1 (amended): for every successfully created comment with a non-null
parent, the stored comment's path equals the parent's stored path followed by
the **new comment's own id** (`path = parent.path || NEW.id`, trigger
`set_comment_path_and_thread`), and its threadId equals the parent's
threadId.  The hypotheses are the success conditions of
`commentService.CreateComment`: caller and post live, content valid, parent
live on the same post, and the fresh id distinct from the parent's. -/
theorem c1_reply_path_and_thread (san : Sanitizer) (db : DB)
    (newId now userId postId pid : Nat) (content : String)
    (u0 au : UserRow) (p0 : PostRow) (P : CommentRow)
    (husers : db.users.find? (fun u => u.id == userId && u.deletedAt == none) = some u0)
    (hpost : db.posts.find? (fun p => p.id == postId && p.deletedAt == none) = some p0)
    (hval : san.validateHTML content = true)
    (hparent : db.comments.find? (fun c => c.id == pid && c.deletedAt == none) = some P)
    (hparentAny : db.comments.find? (fun c => c.id == pid) = some P)
    (hsame : P.postId = postId)
    (hfresh : newId ≠ pid)
    (hauthor : db.users.find?
      (fun u => userId == u.id && u.deletedAt == none) = some au) :
    (createComment san db newId now userId postId (some pid) content).1 =
      .ok { comment :=
              { id := newId, content := san.process content, postId := postId,
                parentId := some pid, path := P.path ++ [newId], threadId := P.threadId,
                createdBy := some userId, createdAt := now, updatedAt := now,
                repliesCount := 0, deletedAt := none },
            author := some au } := by
  simp only [createComment, usersGetByID, postsGetByID, commentsGetByID, husers, hpost,
    hval, hparent, hsame, dbInsertComment, hparentAny, applyIncrementTrigger,
    commentsGetByIDWithAuthor, List.map_cons, List.find?_cons, hfresh, if_neg,
    if_false]
  simp [hauthor, hfresh]

/-- C1 witness: the amended theorem applied to the concrete creation of a
reply to `rootRow` in `dbOne`. -/
theorem c1_reply_path_and_thread_witness :
    (createComment sanTrue dbOne 101 6 11 1 (some 100) "re").1 =
      .ok { comment :=
              { id := 101, content := sanTrue.process "re", postId := 1,
                parentId := some 100, path := rootRow.path ++ [101],
                threadId := rootRow.threadId, createdBy := some 11, createdAt := 6,
                updatedAt := 6, repliesCount := 0, deletedAt := none },
            author := some bobRow } :=
  c1_reply_path_and_thread sanTrue dbOne 101 6 11 1 100 "re" bobRow bobRow postRow1
    rootRow (by decide) (by decide) (by decide) (by decide) (by decide) (by decide)
    (by decide) (by decide)

/-- C2, counterexample: creating a root comment (no parent) in `dbOne` stores
`path = [102]`, its own id — not the empty sequence, so `depth = len(path) +
1` would give 2, not 1, for a root. -/
theorem c2_counterexample :
    ((createComment sanTrue dbOne 102 7 10 1 none "solo").1.toOption.map
      fun o => o.comment.path) = some [102] ∧
    some ([102] : List Nat) ≠ some ([] : List Nat) := by
  decide

/-- C2 (amended): a successfully created root comment is stored with
`path = [newId]` (the trigger stores `ARRAY[NEW.id]`, so the path contains
the comment itself and a root has `len(path) = 1`, i.e. `depth = len(path)`
with depth 1 for roots) and `threadId = newId`. -/
theorem c2_root_path_and_thread (san : Sanitizer) (db : DB)
    (newId now userId postId : Nat) (content : String)
    (u0 au : UserRow) (p0 : PostRow)
    (husers : db.users.find? (fun u => u.id == userId && u.deletedAt == none) = some u0)
    (hpost : db.posts.find? (fun p => p.id == postId && p.deletedAt == none) = some p0)
    (hval : san.validateHTML content = true)
    (hauthor : db.users.find?
      (fun u => userId == u.id && u.deletedAt == none) = some au) :
    (createComment san db newId now userId postId none content).1 =
      .ok { comment :=
              { id := newId, content := san.process content, postId := postId,
                parentId := none, path := [newId], threadId := newId,
                createdBy := some userId, createdAt := now, updatedAt := now,
                repliesCount := 0, deletedAt := none },
            author := some au } ∧
    ([newId].length = 1) := by
  constructor
  · simp only [createComment, usersGetByID, postsGetByID, husers, hpost, hval,
      dbInsertComment, commentsGetByIDWithAuthor, List.find?_cons]
    simp [hauthor]
  · rfl

/-- C2 witness: the amended theorem applied to the concrete creation of a
root comment in `dbOne`. -/
theorem c2_root_path_and_thread_witness :
    (createComment sanTrue dbOne 102 7 10 1 none "solo").1 =
      .ok { comment :=
              { id := 102, content := sanTrue.process "solo", postId := 1,
                parentId := none, path := [102], threadId := 102, createdBy := some 10,
                createdAt := 7, updatedAt := 7, repliesCount := 0, deletedAt := none },
            author := some aliceRow } ∧
    (([102] : List Nat).length = 1) :=
  c2_root_path_and_thread sanTrue dbOne 102 7 10 1 "solo" aliceRow aliceRow postRow1
    (by decide) (by decide) (by decide) (by decide)

/-- C5, counterexample: in `dbTwo` (root comment 100 created at 5, live
reply 101 created at 6, both on post 1), `ListByPost` of
`repository/comment_repo.go` returns **both** comments — including reply 101
whose `parentId` is `some 100`, not null — and in `createdAt` **ascending**
order, refuting both halves of the top-level part of the claim. -/
theorem c5_counterexample :
    ((commentsListByPost dbTwo 1 20 0).map
      fun o => (o.comment.id, o.comment.parentId, o.comment.createdAt)) =
      [(100, none, 5), (101, some 100, 6)] ∧
    (some 100 : Option Nat) ≠ none := by
  decide

/-- C5 (amended): the `part_007` variant `ListByPost` returns only live root
comments of the post ordered by `createdAt` descending, and `GetReplies`
returns only live direct children ordered ascending — but the `ListByPost`
of `repository/comment_repo.go` returns **all** live comments of the post
(replies included, no `parent_id` filter) ordered by `createdAt`
**ascending**. -/
theorem c5_list_query_shapes (db : DB) (postId pid limit offset : Nat) :
    (∀ o ∈ commentsListByPostTopLevel db postId limit offset,
      o.comment.postId = postId ∧ o.comment.deletedAt = none ∧ o.comment.parentId = none) ∧
    List.Sorted createdAtDesc
      ((commentsListByPostTopLevel db postId limit offset).map fun o => o.comment) ∧
    (∀ o ∈ commentsGetReplies db pid limit offset,
      o.comment.parentId = some pid ∧ o.comment.deletedAt = none) ∧
    List.Sorted createdAtAsc
      ((commentsGetReplies db pid limit offset).map fun o => o.comment) ∧
    (∀ o ∈ commentsListByPost db postId limit offset,
      o.comment.postId = postId ∧ o.comment.deletedAt = none) ∧
    List.Sorted createdAtAsc
      ((commentsListByPost db postId limit offset).map fun o => o.comment) := by
  refine ⟨?_, ?_, ?_, ?_, ?_, ?_⟩
  · intro o ho
    obtain ⟨c, hc, rfl⟩ := List.mem_map.mp ho
    have hmem := (List.mem_insertionSort _).mp (mem_of_mem_page hc)
    have hpred := (List.mem_filter.mp hmem).2
    simp only [Bool.and_eq_true, beq_iff_eq] at hpred
    exact ⟨hpred.1.1, hpred.1.2, hpred.2⟩
  · rw [commentsListByPostTopLevel, map_comment_leftJoin]
    exact sorted_page (List.sorted_insertionSort createdAtDesc _) _ _
  · intro o ho
    obtain ⟨c, hc, rfl⟩ := List.mem_map.mp ho
    have hmem := (List.mem_insertionSort _).mp (mem_of_mem_page hc)
    have hpred := (List.mem_filter.mp hmem).2
    simp only [Bool.and_eq_true, beq_iff_eq] at hpred
    exact ⟨hpred.1, hpred.2⟩
  · rw [commentsGetReplies, map_comment_leftJoin]
    exact sorted_page (List.sorted_insertionSort createdAtAsc _) _ _
  · intro o ho
    obtain ⟨c, hc, rfl⟩ := List.mem_map.mp ho
    have hmem := (List.mem_insertionSort _).mp (mem_of_mem_page hc)
    have hpred := (List.mem_filter.mp hmem).2
    simp only [Bool.and_eq_true, beq_iff_eq] at hpred
    exact ⟨hpred.1, hpred.2⟩
  · rw [commentsListByPost, map_comment_leftJoin]
    exact sorted_page (List.sorted_insertionSort createdAtAsc _) _ _

/-- C5 witness: the reply query on `dbTwo` contains reply 101, and the
amended theorem yields its parent and liveness facts at that member. -/
theorem c5_list_query_shapes_witness :
    leftJoinAuthor dbTwo replyRow ∈ commentsGetReplies dbTwo 100 20 0 ∧
    ((leftJoinAuthor dbTwo replyRow).comment.parentId = some 100 ∧
     (leftJoinAuthor dbTwo replyRow).comment.deletedAt = none) :=
  ⟨by decide,
   (c5_list_query_shapes dbTwo 1 100 20 0).2.2.1 (leftJoinAuthor dbTwo replyRow) (by decide)⟩

/-- C6: the list handlers answer with `gin.H{"comments"/"replies", "limit",
"offset", "count"}` — there is **no** `total` and **no** `has_more` key in
any list response, although the repository's own API documentation promises
`pagination: {limit, offset, total, has_more}`.  Requesting an offset past
the end returns empty items, and again no `has_more` field (rather than
`has_more = false`). -/
theorem c6_missing_pagination_envelope :
    respKeys (listCommentsByPostHandler dbTwo 1 20 0) =
      ["comments", "limit", "offset", "count"] ∧
    "total" ∉ respKeys (listCommentsByPostHandler dbTwo 1 20 0) ∧
    "has_more" ∉ respKeys (listCommentsByPostHandler dbTwo 1 20 0) ∧
    respKeys (getCommentRepliesHandler dbTwo 100 20 0) =
      ["replies", "limit", "offset", "count"] ∧
    "total" ∉ respKeys (getCommentRepliesHandler dbTwo 100 20 0) ∧
    "has_more" ∉ respKeys (getCommentRepliesHandler dbTwo 100 20 0) ∧
    listCommentsByPostHandler dbTwo 1 20 5 =
      .ok [("comments", .items []), ("limit", .num 20), ("offset", .num 5),
           ("count", .num 0)] := by
  decide

/-- C3: if every comment's `replies_count` equals its number of live direct
children, then both a comment insertion (trigger `update_replies_count`
incrementing the parent) and a soft delete (trigger `decrement_replies_count`
decrementing the parent with a floor at 0) preserve that invariant.  The
insertion needs the generated id to be fresh; the deletion needs primary-key
uniqueness of ids. -/
theorem c3_replies_count_invariant_preserved
    (db : DB) (row : CommentRow) (now : Nat) (dbi : DB) (cid delNow : Nat) (dbd : DB)
    (hinv : RepliesInv db.comments)
    (hfresh : ∀ c ∈ db.comments, c.id ≠ row.id ∧ c.parentId ≠ some row.id)
    (hnodup : (db.comments.map fun c => c.id).Nodup)
    (hins : dbInsertComment db row now = some dbi)
    (hdel : commentsDelete db cid delNow = .ok dbd) :
    RepliesInv dbi.comments ∧ RepliesInv dbd.comments := by
  constructor
  · -- insertion preserves the invariant
    cases hpar : row.parentId with
    | none =>
      simp only [dbInsertComment, hpar, Option.some.injEq] at hins
      subst hins
      intro c hc
      rcases List.mem_cons.mp hc with rfl | hcm
      · show (0 : Int) = _
        rw [liveChildCount_cons,
          liveChildCount_eq_zero db.comments row.id fun c hc => (hfresh c hc).2]
        simp [hpar]
      · rw [hinv c hcm, liveChildCount_cons]
        simp [hpar]
    | some p =>
      simp only [dbInsertComment, hpar] at hins
      cases hfp : db.comments.find? (fun c => c.id == p) with
      | none => rw [hfp] at hins; simp at hins
      | some parent =>
        rw [hfp] at hins
        simp only [Option.some.injEq] at hins
        subst hins
        have hpmem : parent ∈ db.comments := List.mem_of_find?_eq_some hfp
        have hpid : parent.id = p := by simpa using List.find?_some hfp
        have hpneq : p ≠ row.id := hpid ▸ (hfresh parent hpmem).1
        intro c' hc'
        simp only [applyIncrementTrigger] at hc' ⊢
        obtain ⟨c0, hc0, rfl⟩ := List.mem_map.mp hc'
        rcases List.mem_cons.mp hc0 with rfl | hc0m
        · rw [if_neg fun hh => hpneq hh.symm]
          show (0 : Int) = _
          rw [liveChildCount_bump, liveChildCount_cons,
            liveChildCount_eq_zero db.comments row.id fun c hc => (hfresh c hc).2]
          simp [hpneq]
        · by_cases hcp : c0.id = p
          · rw [if_pos hcp]
            show c0.repliesCount + 1 = _
            rw [hinv c0 hc0m]
            simp only [liveChildCount_bump, liveChildCount_cons, hcp]
            simp
          · rw [if_neg hcp]
            rw [hinv c0 hc0m]
            simp only [liveChildCount_bump, liveChildCount_cons]
            have hne : ((some p : Option Nat) == some c0.id) = false := by
              simpa using fun h => hcp h.symm
            simp [hne]
  · -- soft delete preserves the invariant
    unfold commentsDelete at hdel
    cases hfd : db.comments.find? (fun c => c.id == cid && c.deletedAt == none) with
    | none => rw [hfd] at hdel; simp at hdel
    | some x =>
      rw [hfd] at hdel
      simp only [Except.ok.injEq] at hdel
      subst hdel
      have hxmem : x ∈ db.comments := List.mem_of_find?_eq_some hfd
      have hxp : x.id = cid ∧ x.deletedAt = none := by simpa using List.find?_some hfd
      have hdc := fun cid' => liveChildCount_markDeleted db.comments delNow cid cid' x hfd hnodup
      intro c' hc'
      cases hxpar : x.parentId with
      | none =>
        simp only [applyDecrementTrigger, hxpar] at hc' ⊢
        obtain ⟨c0, hc0, rfl⟩ := List.mem_map.mp hc'
        have hrc : (markDeleted delNow cid c0).repliesCount = c0.repliesCount := by
          unfold markDeleted; split <;> rfl
        have hid : (markDeleted delNow cid c0).id = c0.id := by
          unfold markDeleted; split <;> rfl
        rw [hrc, hid, hinv c0 hc0]
        have hcnt := hdc c0.id
        rw [hxpar] at hcnt
        simp at hcnt
        omega
      | some p =>
        simp only [applyDecrementTrigger, hxpar] at hc' ⊢
        obtain ⟨c1, hc1, rfl⟩ := List.mem_map.mp hc'
        obtain ⟨c0, hc0, rfl⟩ := List.mem_map.mp hc1
        have hrc : (markDeleted delNow cid c0).repliesCount = c0.repliesCount := by
          unfold markDeleted; split <;> rfl
        have hid : (markDeleted delNow cid c0).id = c0.id := by
          unfold markDeleted; split <;> rfl
        by_cases hcp : c0.id = p
        · rw [if_pos (hid.trans hcp), hrc, hid]
          have hone : 1 ≤ liveChildCount db.comments p :=
            one_le_liveChildCount _ _ x hxmem hxp.2 hxpar
          have hcnt := hdc p
          rw [hxpar] at hcnt
          simp at hcnt
          rw [hinv c0 hc0]
          simp only [liveChildCount_dec, hcp]
          omega
        · rw [if_neg fun h => hcp (hid ▸ h), hrc, hid, hinv c0 hc0]
          simp only [liveChildCount_dec]
          have hcnt := hdc c0.id
          rw [hxpar] at hcnt
          have hne : p ≠ c0.id := fun h => hcp h.symm
          simp [hne] at hcnt
          omega

/-- C3 witness: the invariant theorem applied to `dbTwo` (where it holds),
inserting a second reply under root 100 and soft-deleting reply 101; the root
row's counter matches its live-children count in both resulting states. -/
theorem c3_replies_count_invariant_preserved_witness :
    ({ rootRow with repliesCount := 2, updatedAt := 8 } : CommentRow).repliesCount =
      (liveChildCount dbTwoIns.comments
        ({ rootRow with repliesCount := 2, updatedAt := 8 } : CommentRow).id : Int) ∧
    ({ rootRow with repliesCount := 0, updatedAt := 7 } : CommentRow).repliesCount =
      (liveChildCount dbTwoDel.comments
        ({ rootRow with repliesCount := 0, updatedAt := 7 } : CommentRow).id : Int) := by
  have h := c3_replies_count_invariant_preserved dbTwo row102 8 dbTwoIns 101 7 dbTwoDel
    (by decide) (by decide) (by decide) (by decide) (by decide)
  exact ⟨h.1 _ (by decide), h.2 _ (by decide)⟩

/-- C4: a successful soft delete of a live comment with parent `p` keeps
every row (same length), sets the parent's counter to
`GREATEST(old - 1, 0)` — exactly one less, floored at zero, hence never
negative — and leaves the `replies_count` of **every** other row (ancestors
beyond the parent, the deleted comment itself, and its children) unchanged. -/
theorem c4_soft_delete_frame (db : DB) (cid now p : Nat) (x : CommentRow) (dbd : DB)
    (hfind : db.comments.find? (fun c => c.id == cid && c.deletedAt == none) = some x)
    (hp : x.parentId = some p)
    (hdel : commentsDelete db cid now = .ok dbd) :
    dbd.comments.length = db.comments.length ∧
    ∀ c ∈ db.comments, ∃ c' ∈ dbd.comments,
      c'.id = c.id ∧
      (c.id = p → c'.repliesCount = max (c.repliesCount - 1) 0 ∧ 0 ≤ c'.repliesCount) ∧
      (c.id ≠ p → c'.repliesCount = c.repliesCount) := by
  unfold commentsDelete at hdel
  rw [hfind] at hdel
  simp only [Except.ok.injEq] at hdel
  subst hdel
  simp only [applyDecrementTrigger, hp]
  constructor
  · simp
  · intro c hc
    have hid : (markDeleted now cid c).id = c.id := by
      unfold markDeleted; split <;> rfl
    have hrc : (markDeleted now cid c).repliesCount = c.repliesCount := by
      unfold markDeleted; split <;> rfl
    refine ⟨_, List.mem_map_of_mem _ (List.mem_map_of_mem _ hc), ?_, ?_, ?_⟩
    · by_cases h : (markDeleted now cid c).id = p
      · rw [if_pos h]; exact hid
      · rw [if_neg h]; exact hid
    · intro hcp
      rw [if_pos (hid.trans hcp)]
      exact ⟨by simp [hrc], le_max_right _ _⟩
    · intro hcp
      rw [if_neg fun h => hcp (hid ▸ h)]
      exact hrc

/-- C4 witness: frame theorem applied to soft-deleting reply 101 in `dbTwo`
(parent 100). -/
theorem c4_soft_delete_frame_witness :
    dbTwoDel.comments.length = dbTwo.comments.length :=
  (c4_soft_delete_frame dbTwo 101 7 100 replyRow dbTwoDel (by decide) (by decide)
    (by decide)).1

/-- A row rewrite that does not affect the searched predicate commutes with
`find?`. -/
theorem find?_map_of_pred_eq (g : CommentRow → CommentRow) (pred : CommentRow → Bool)
    (l : List CommentRow) (h : ∀ r, pred (g r) = pred r) :
    (l.map g).find? pred = (l.find? pred).map g := by
  induction l with
  | nil => rfl
  | cons a t ih =>
    rw [List.map_cons, List.find?_cons, List.find?_cons, h a]
    cases pred a <;> simp [ih]

/-- C7: creating a comment whose live parent belongs to a different post than
the one addressed fails with `utils.ErrInvalidInput` (the spec's
`InvalidReference` kind) before any insert, leaving the database unchanged —
no comment is created. -/
theorem c7_cross_post_parent_rejected (san : Sanitizer) (db : DB)
    (newId now userId postId pid : Nat) (content : String)
    (u0 : UserRow) (p0 : PostRow) (P : CommentRow)
    (husers : db.users.find? (fun u => u.id == userId && u.deletedAt == none) = some u0)
    (hpost : db.posts.find? (fun p => p.id == postId && p.deletedAt == none) = some p0)
    (hval : san.validateHTML content = true)
    (hparent : db.comments.find? (fun c => c.id == pid && c.deletedAt == none) = some P)
    (hdiff : P.postId ≠ postId) :
    createComment san db newId now userId postId (some pid) content =
      (.error .invalidInput, db) := by
  simp only [createComment, usersGetByID, postsGetByID, commentsGetByID, husers, hpost,
    hval, hparent]
  rw [if_pos hdiff]
  simp

/-- C7 witness: replying under post 2 to comment 100 (which lives on post 1)
in `dbTwo`. -/
theorem c7_cross_post_parent_rejected_witness :
    createComment sanTrue dbTwo 103 9 10 2 (some 100) "z" =
      (.error .invalidInput, dbTwo) :=
  c7_cross_post_parent_rejected sanTrue dbTwo 103 9 10 2 100 "z" aliceRow postRow2
    { rootRow with repliesCount := 1 } (by decide) (by decide) (by decide) (by decide)
    (by decide)

/-- C8: after a successful soft delete of the live comment `cid`, every row
with that id carries a tombstone, so `GetByID` excludes it
(`ErrCommentNotFound`), a second `Delete` finds zero live rows and fails
`ErrCommentNotFound` leaving the state unchanged, and creating a reply whose
parent is the soft-deleted comment fails `ErrCommentNotFound` (the parent
lookup uses the live-only `GetByID`) leaving the state unchanged. -/
theorem c8_soft_delete_excludes (db : DB) (cid now now2 : Nat) (x : CommentRow)
    (dbd : DB) (san : Sanitizer) (newId cnow userId postId : Nat) (content : String)
    (u0 : UserRow) (p0 : PostRow)
    (hfind : db.comments.find? (fun c => c.id == cid && c.deletedAt == none) = some x)
    (hdel : commentsDelete db cid now = .ok dbd)
    (husers : dbd.users.find? (fun u => u.id == userId && u.deletedAt == none) = some u0)
    (hpost : dbd.posts.find? (fun p => p.id == postId && p.deletedAt == none) = some p0)
    (hval : san.validateHTML content = true) :
    commentsGetByID dbd cid = .error .commentNotFound ∧
    commentsDelete dbd cid now2 = .error .commentNotFound ∧
    createComment san dbd newId cnow userId postId (some cid) content =
      (.error .commentNotFound, dbd) := by
  unfold commentsDelete at hdel
  rw [hfind] at hdel
  simp only [Except.ok.injEq] at hdel
  subst hdel
  have hnone :
      (applyDecrementTrigger (db.comments.map (markDeleted now cid)) x.parentId
        now).find? (fun c => c.id == cid && c.deletedAt == none) = none := by
    apply List.find?_eq_none.mpr
    intro c' hc'
    have hdead : ∀ c0 ∈ db.comments.map (markDeleted now cid),
        c0.id = cid → c0.deletedAt ≠ none := by
      intro c0 hc0 hcid
      obtain ⟨c1, hc1m, rfl⟩ := List.mem_map.mp hc0
      by_cases hcnd : c1.id = cid ∧ c1.deletedAt = none
      · unfold markDeleted
        rw [if_pos hcnd]
        simp
      · unfold markDeleted at hcid ⊢
        rw [if_neg hcnd] at hcid ⊢
        intro hlive
        exact hcnd ⟨hcid, hlive⟩
    cases hxp : x.parentId with
    | none =>
      simp only [applyDecrementTrigger, hxp] at hc'
      intro hpred
      simp only [Bool.and_eq_true, beq_iff_eq] at hpred
      exact hdead c' hc' hpred.1 hpred.2
    | some p =>
      simp only [applyDecrementTrigger, hxp] at hc'
      obtain ⟨c0, hc0, rfl⟩ := List.mem_map.mp hc'
      intro hpred
      simp only [Bool.and_eq_true, beq_iff_eq] at hpred
      by_cases h : c0.id = p
      · rw [if_pos h] at hpred
        exact hdead c0 hc0 hpred.1 hpred.2
      · rw [if_neg h] at hpred
        exact hdead c0 hc0 hpred.1 hpred.2
  refine ⟨?_, ?_, ?_⟩
  · simp only [commentsGetByID, hnone]
  · simp only [commentsDelete, hnone]
  · simp only [createComment, usersGetByID, postsGetByID, commentsGetByID, husers, hpost,
      hval, hnone]
    simp

/-- C8 witness: in `dbTwoDel` (reply 101 already soft-deleted) the reply is
invisible to `GetByID`, cannot be deleted again, and cannot be replied to. -/
theorem c8_soft_delete_excludes_witness :
    commentsGetByID dbTwoDel 101 = .error .commentNotFound ∧
    commentsDelete dbTwoDel 101 11 = .error .commentNotFound ∧
    createComment sanTrue dbTwoDel 104 12 10 1 (some 101) "w" =
      (.error .commentNotFound, dbTwoDel) :=
  c8_soft_delete_excludes dbTwo 101 7 11 replyRow dbTwoDel sanTrue 104 12 10 1 "w"
    aliceRow postRow1 (by decide) (by decide) (by decide) (by decide) (by decide)

/-- C9: on a live comment owned by `userId`, update and delete by a caller
with a different id fail `ErrForbidden` and leave the database unchanged,
while the owner's update succeeds (returning the content-updated row with its
author) and the owner's delete succeeds. -/
theorem c9_author_only_mutations (san : Sanitizer) (db : DB)
    (now cid userId otherId : Nat) (x : CommentRow) (s : String) (u0 : UserRow)
    (hfind : db.comments.find? (fun c => c.id == cid && c.deletedAt == none) = some x)
    (howner : x.createdBy = some userId)
    (hother : otherId ≠ userId)
    (hval : san.validateHTML s = true)
    (hauthor : db.users.find? (fun u => userId == u.id && u.deletedAt == none) = some u0) :
    updateComment san db now cid otherId (some s) = (.error .forbidden, db) ∧
    deleteComment db now cid otherId = (.error .forbidden, db) ∧
    (updateComment san db now cid userId (some s)).1 =
      .ok { comment := { x with content := san.process s, updatedAt := now },
            author := some u0 } ∧
    (deleteComment db now cid userId).1 = .ok () := by
  have hx := List.find?_some hfind
  simp only [Bool.and_eq_true, beq_iff_eq] at hx
  refine ⟨?_, ?_, ?_, ?_⟩
  · simp only [updateComment, commentsGetByID, hfind, howner]
    rw [if_pos fun h => hother h.symm]
  · simp only [deleteComment, commentsGetByID, hfind, howner]
    rw [if_pos fun h => hother h.symm]
  · simp only [updateComment, commentsGetByID, hfind, howner]
    rw [if_neg fun h => h rfl]
    simp only [hval, commentsUpdate, hfind, commentsGetByIDWithAuthor]
    rw [find?_map_of_pred_eq _ _ _ fun r => by
      by_cases h : r.id = cid ∧ r.deletedAt = none <;> simp [h]]
    rw [hfind]
    simp [hx, howner, hauthor]
  · simp only [deleteComment, commentsGetByID, hfind, howner]
    rw [if_neg fun h => h rfl]
    simp only [commentsDelete, hfind]

/-- C9 witness: comment 101 in `dbTwo` is owned by user 11; user 10 cannot
update or delete it, user 11 can. -/
theorem c9_author_only_mutations_witness :
    updateComment sanTrue dbTwo 13 101 10 (some "e") = (.error .forbidden, dbTwo) ∧
    deleteComment dbTwo 13 101 10 = (.error .forbidden, dbTwo) ∧
    (updateComment sanTrue dbTwo 13 101 11 (some "e")).1 =
      .ok { comment := { replyRow with content := sanTrue.process "e", updatedAt := 13 },
            author := some bobRow } ∧
    (deleteComment dbTwo 13 101 11).1 = .ok () :=
  c9_author_only_mutations sanTrue dbTwo 13 101 11 10 replyRow "e" bobRow (by decide)
    (by decide) (by decide) (by decide) (by decide)

/-- C10: a live comment whose author is soft-deleted (or whose `createdBy`
matches no live user, including null) is invisible to `GetByIDWithAuthor` —
the inner join finds no author row and the repository reports
`ErrCommentNotFound`; this is the same function `CreateComment` uses for its
read-back.  The list queries use a LEFT JOIN instead: `ListByPost` still
returns the comment, with no author attached. -/
theorem c10_deleted_author_visibility (db : DB) (cid : Nat) (x : CommentRow)
    (hfind : db.comments.find? (fun c => c.id == cid && c.deletedAt == none) = some x)
    (hauth : db.users.find?
      (fun u => x.createdBy == some u.id && u.deletedAt == none) = none) :
    commentsGetByIDWithAuthor db cid = .error .commentNotFound ∧
    leftJoinAuthor db x ∈ commentsListByPost db x.postId db.comments.length 0 ∧
    (leftJoinAuthor db x).author = none := by
  have hx := List.find?_some hfind
  simp only [Bool.and_eq_true, beq_iff_eq] at hx
  refine ⟨?_, ?_, ?_⟩
  · simp only [commentsGetByIDWithAuthor, hfind, hauth]
  · apply List.mem_map_of_mem
    have hxf : x ∈ db.comments.filter
        (fun c => c.postId == x.postId && c.deletedAt == none) := by
      refine List.mem_filter.mpr ⟨List.mem_of_find?_eq_some hfind, ?_⟩
      simp [hx.2]
    have hxs : x ∈ (db.comments.filter
        (fun c => c.postId == x.postId && c.deletedAt == none)).insertionSort
          createdAtAsc := (List.mem_insertionSort _).mpr hxf
    have hlen : ((db.comments.filter
        (fun c => c.postId == x.postId && c.deletedAt == none)).insertionSort
          createdAtAsc).length ≤ db.comments.length := by
      rw [List.length_insertionSort]
      exact List.length_filter_le _ _
    unfold page
    rw [List.drop_zero, List.take_of_length_le hlen]
    exact hxs
  · simp [leftJoinAuthor, hauth]

/-- C10 witness: in `dbOrphan` comment 100 is live but its author (user 10)
is soft-deleted: the with-author fetch fails, yet the post listing returns
the comment with `author = none`. -/
theorem c10_deleted_author_visibility_witness :
    commentsGetByIDWithAuthor dbOrphan 100 = .error .commentNotFound ∧
    leftJoinAuthor dbOrphan rootRow ∈
      commentsListByPost dbOrphan rootRow.postId dbOrphan.comments.length 0 ∧
    (leftJoinAuthor dbOrphan rootRow).author = none :=
  c10_deleted_author_visibility dbOrphan 100 rootRow (by decide) (by decide)

end PostComments
